import Mathlib

/-!
Verification of the suite-operator core (`src/sweet/core.py`) against its
natural-language specification.

The embedding translates the Python module `sweet/core.py` into Lean:

* Python dicts become insertion-ordered association lists (`dget`, `dset`,
  `dpop`, `dkeys`, `dvalues` mirror `d[k]`, `d[k] = v`, `d.pop(k, None)`,
  `d.keys()`, `d.values()`).
* The blinker error signal becomes an explicit listener count plus a list of
  delivered events; a Python `raise` becomes an `Option SErr` / `Except SErr`
  result.
* The external package-resolution engine (`rez.resolved_context.ResolvedContext`)
  becomes an oracle parameter `List String → Except SErr ResolvedContext`.
* `uuid.uuid4().hex` becomes an explicit fresh-identifier parameter; the
  collision-negligible contract of the spec becomes freshness hypotheses.
* The underlying context collection `SweetSuite` lives in the repository file
  `sweet/_rezapi.py` (a subclass of rez's `Suite`), which is not part of the
  sources under verification; its operations are modelled from the spec and
  from the conventions `core.py` itself relies on (operations addressing an
  unknown context raise `SuiteError`, which `core.py` catches in
  `drop_context` and `update_tool`).
-/

namespace Sweet

/-- Error values: `SuiteOpError` (core.py), rez `SuiteError`, resolution-engine
errors (`RezError`/`Exception`), and Python `TypeError`. -/
inductive SErr where
  | suiteOpError : String → SErr
  | suiteError : String → SErr
  | resolveError : String → SErr
  | typeError : String → SErr
deriving DecidableEq

/-- The outcome of `ResolvedContext(requests)`: the request list it was built
from, its success flag, and the tool names its packages expose. -/
structure ResolvedContext where
  requests : List String
  success : Bool
  tool_names : List String
deriving DecidableEq

/-- The external resolution engine: `ResolvedContext(requests)` either returns
a context or raises (`.error`). -/
def Oracle : Type := List String → Except SErr ResolvedContext

/-- One event delivered to the listeners of the `sweet:error` signal. -/
structure Emitted where
  sender : String
  err : SErr
  fatal : Bool
deriving DecidableEq

/-! ### Python dictionaries as insertion-ordered association lists -/

/-- `d.get(k)` on a Python dict. -/
def dget {α : Type} (d : List (String × α)) (k : String) : Option α :=
  match d with
  | [] => none
  | (k', v) :: t => if k' = k then some v else dget t k

/-- `d[k] = v` on a Python dict: update in place if the key exists, else
append at the end (insertion order). -/
def dset {α : Type} (d : List (String × α)) (k : String) (v : α) :
    List (String × α) :=
  match d with
  | [] => [(k, v)]
  | (k', v') :: t => if k' = k then (k, v) :: t else (k', v') :: dset t k v

/-- `d.pop(k, None)` / `del d[k]` on a Python dict: drop the entry if present. -/
def dpop {α : Type} (d : List (String × α)) (k : String) : List (String × α) :=
  match d with
  | [] => []
  | (k', v') :: t => if k' = k then t else (k', v') :: dpop t k

/-- `d.keys()`. -/
def dkeys {α : Type} (d : List (String × α)) : List String := d.map Prod.fst

/-- `d.values()`. -/
def dvalues {α : Type} (d : List (String × α)) : List α := d.map Prod.snd

@[simp] theorem dget_nil {α : Type} (k : String) : dget ([] : List (String × α)) k = none := rfl

@[simp] theorem dget_cons {α : Type} (k' k : String) (v : α) (t : List (String × α)) :
    dget ((k', v) :: t) k = if k' = k then some v else dget t k := rfl

@[simp] theorem dkeys_nil {α : Type} : dkeys ([] : List (String × α)) = [] := rfl

@[simp] theorem dkeys_cons {α : Type} (p : String × α) (t : List (String × α)) :
    dkeys (p :: t) = p.1 :: dkeys t := rfl

@[simp] theorem dvalues_nil {α : Type} : dvalues ([] : List (String × α)) = [] := rfl

@[simp] theorem dvalues_cons {α : Type} (p : String × α) (t : List (String × α)) :
    dvalues (p :: t) = p.2 :: dvalues t := rfl

theorem dget_none_iff {α : Type} (d : List (String × α)) (k : String) :
    dget d k = none ↔ k ∉ dkeys d := by
  induction d with
  | nil => simp
  | cons p t ih =>
    obtain ⟨k', v⟩ := p
    by_cases h : k' = k
    · simp [dget, h]
    · have h2 : ¬ k = k' := fun hh => h hh.symm
      simp [dget, h, h2, ih]

theorem dget_isSome_iff {α : Type} (d : List (String × α)) (k : String) :
    (dget d k).isSome ↔ k ∈ dkeys d := by
  induction d with
  | nil => simp [dget]
  | cons p t ih =>
    obtain ⟨k', v⟩ := p
    by_cases h : k' = k
    · simp [dget, h]
    · have h2 : ¬ k = k' := fun hh => h hh.symm
      simp [dget, h, h2, ih]

theorem dget_some_mem_values {α : Type} {d : List (String × α)} {k : String} {v : α}
    (h : dget d k = some v) : v ∈ dvalues d := by
  induction d with
  | nil => simp [dget] at h
  | cons p t ih =>
    obtain ⟨k', v'⟩ := p
    by_cases hk : k' = k
    · simp [dget, hk] at h
      simp [h]
    · simp [dget, hk] at h
      simp [ih h]

theorem dpop_of_absent {α : Type} {d : List (String × α)} {k : String}
    (h : dget d k = none) : dpop d k = d := by
  induction d with
  | nil => rfl
  | cons p t ih =>
    obtain ⟨k', v'⟩ := p
    by_cases hk : k' = k
    · simp [dget, hk] at h
    · simp [dget, hk] at h
      simp [dpop, hk, ih h]

/-- `dpop` yields a sublist of the original association list. -/
theorem dpop_sublist {α : Type} (d : List (String × α)) (k : String) :
    (dpop d k).Sublist d := by
  induction d with
  | nil => simp [dpop]
  | cons p t ih =>
    obtain ⟨k', v'⟩ := p
    by_cases hk : k' = k
    · simp [dpop, hk]
    · simpa [dpop, hk] using ih.cons₂ (k', v')

theorem dget_dset_self {α : Type} (d : List (String × α)) (k : String) (v : α) :
    dget (dset d k v) k = some v := by
  induction d with
  | nil => simp [dset, dget]
  | cons p t ih =>
    obtain ⟨k', v'⟩ := p
    by_cases hk : k' = k
    · simp [dset, hk, dget]
    · simp [dset, hk, dget, ih]

theorem dget_dset_ne {α : Type} (d : List (String × α)) (k k' : String) (v : α)
    (h : k ≠ k') : dget (dset d k v) k' = dget d k' := by
  induction d with
  | nil => simp [dset, dget, h]
  | cons p t ih =>
    obtain ⟨k0, v0⟩ := p
    by_cases hk : k0 = k
    · subst hk
      simp [dset, dget, h]
    · simp [dset, hk, dget, ih]

/-- Setting a fresh key appends the pair at the end. -/
theorem dset_of_absent {α : Type} {d : List (String × α)} {k : String} (v : α)
    (h : k ∉ dkeys d) : dset d k v = d ++ [(k, v)] := by
  induction d with
  | nil => rfl
  | cons p t ih =>
    obtain ⟨k', v'⟩ := p
    simp only [dkeys_cons, List.mem_cons] at h
    push_neg at h
    have hk : k' ≠ k := fun hh => h.1 hh.symm
    simp [dset, hk, ih h.2]

theorem mem_dkeys_dset {α : Type} (d : List (String × α)) (k x : String) (v : α) :
    x ∈ dkeys (dset d k v) ↔ x ∈ dkeys d ∨ x = k := by
  induction d with
  | nil => simp [dset]
  | cons p t ih =>
    obtain ⟨k', v'⟩ := p
    by_cases hk : k' = k
    · subst hk
      simp [dset]
      tauto
    · simp [dset, hk, ih]
      tauto

/-- Updating an existing key leaves the key list unchanged. -/
theorem dkeys_dset_of_mem {α : Type} {d : List (String × α)} {k : String} (v : α)
    (h : k ∈ dkeys d) : dkeys (dset d k v) = dkeys d := by
  induction d with
  | nil => simp at h
  | cons p t ih =>
    obtain ⟨k', v'⟩ := p
    by_cases hk : k' = k
    · simp [dset, hk]
    · simp only [dkeys_cons, List.mem_cons] at h
      rcases h with h | h

      · exact absurd h.symm hk
      · simp [dset, hk, ih h]

theorem dvalues_dset_of_absent {α : Type} {d : List (String × α)} {k : String} (v : α)
    (h : k ∉ dkeys d) : dvalues (dset d k v) = dvalues d ++ [v] := by
  rw [dset_of_absent v h]
  simp [dvalues]

theorem mem_dvalues_dset {α : Type} {d : List (String × α)} {k : String} {v x : α}
    (h : x ∈ dvalues (dset d k v)) : x ∈ dvalues d ∨ x = v := by
  induction d with
  | nil => simpa [dset] using h
  | cons p t ih =>
    obtain ⟨k', v'⟩ := p
    by_cases hk : k' = k
    · simp [dset, hk] at h
      tauto
    · simp [dset, hk] at h ⊢
      rcases h with h | h
      · tauto
      · rcases ih h with h2 | h2 <;> tauto

/-- Updating the value at an existing key keeps the value list duplicate-free
when the new value is not already present. -/
theorem nodup_dvalues_dset {α : Type} [DecidableEq α] {d : List (String × α)}
    {k : String} {v : α} (hnd : (dvalues d).Nodup) (hv : v ∉ dvalues d) :
    (dvalues (dset d k v)).Nodup := by
  induction d with
  | nil => simp [dset, dvalues]
  | cons p t ih =>
    obtain ⟨k', v'⟩ := p
    simp only [dvalues_cons, List.nodup_cons] at hnd
    simp only [dvalues_cons, List.mem_cons] at hv
    push_neg at hv
    by_cases hk : k' = k
    · simp [dset, hk]
      exact ⟨hv.2, hnd.2⟩
    · simp only [dset, if_neg hk, dvalues_cons, List.nodup_cons]
      refine ⟨fun hmem => ?_, ih hnd.2 hv.2⟩
      rcases mem_dvalues_dset hmem with h | h
      · exact hnd.1 h
      · exact hv.1 h.symm

theorem dget_dpop_self {α : Type} {d : List (String × α)} {k : String}
    (hnd : (dkeys d).Nodup) : dget (dpop d k) k = none := by
  induction d with
  | nil => rfl
  | cons p t ih =>
    obtain ⟨k', v'⟩ := p
    simp only [dkeys_cons, List.nodup_cons] at hnd
    by_cases hk : k' = k
    · subst hk
      simp [dpop, (dget_none_iff t k').mpr hnd.1]
    · simp [dpop, hk, dget, ih hnd.2]

theorem dget_dpop_ne {α : Type} (d : List (String × α)) (k k' : String)
    (h : k ≠ k') : dget (dpop d k) k' = dget d k' := by
  induction d with
  | nil => rfl
  | cons p t ih =>
    obtain ⟨k0, v0⟩ := p
    by_cases hk : k0 = k
    · subst hk
      simp [dpop, dget, h]
    · simp [dpop, hk, dget, ih]

theorem mem_dkeys_dpop_of_ne {α : Type} {d : List (String × α)} {k x : String}
    (hx : x ∈ dkeys d) (hne : x ≠ k) : x ∈ dkeys (dpop d k) := by
  induction d with
  | nil => simp at hx
  | cons p t ih =>
    obtain ⟨k0, v0⟩ := p
    by_cases hk : k0 = k
    · subst hk
      simp only [dkeys_cons, List.mem_cons] at hx
      rcases hx with h | h
      · exact absurd h hne
      · simpa [dpop] using h
    · simp only [dkeys_cons, List.mem_cons] at hx
      rcases hx with h | h
      · simp [dpop, hk, h]
      · simp [dpop, hk, ih h]

/-! ### Data model -/

/-- The per-context record held in `Suite.contexts` (rez): the key (`name`),
the resolved context, the priority, the optional alias prefix/suffix strings
(`pfx`/`sfx` stand for the source's `prefix`/`suffix`), the per-tool alias
overrides and the set of hidden tool names. -/
structure CtxData where
  name : String
  context : ResolvedContext
  priority : Nat
  pfx : String
  sfx : String
  tool_aliases : List (String × String)
  hidden_tools : List String
deriving DecidableEq

/-- One entry of the flattened tool table (`tool_name`, `tool_alias`,
`context_name`, `variant`), as consumed by `SuiteOp._tool_data_to_tuple`. -/
structure ToolData where
  tool_name : String
  tool_alias : String
  context_name : String
  variant : Option String
deriving DecidableEq

/-- Modelled from the spec: the underlying context collection `SweetSuite`
(repository file `sweet/_rezapi.py`, absent from the sources under
verification; a subclass of rez's `Suite`). `contexts` is the name-keyed
context dict; `tools`, `hidden_tools`, `tool_conflicts` and `saved_tools` are
the derived tool-table registries read by `SuiteOp.iter_tools` (visible
registry keyed by alias, hidden entries, per-alias shadowed entries, and the
previously cached alias→name mapping per context). -/
structure SweetSuite where
  contexts : List (String × CtxData)
  description : String
  tools : List (String × ToolData)
  hidden_tools : List ToolData
  tool_conflicts : List (String × List ToolData)
  saved_tools : List (String × List (String × String))
deriving DecidableEq

/-- A fresh, empty suite (`SweetSuite()`). -/
def SweetSuite.empty : SweetSuite :=
  ⟨[], "", [], [], [], []⟩

/-- Modelled from the spec: `Suite.has_context`. -/
def SweetSuite.has_context (s : SweetSuite) (name : String) : Bool :=
  (dget s.contexts name).isSome

/-- The default priority for a newly added context: highest-so-far + 1, so
newly added contexts take precedence (spec §4.3). -/
def SweetSuite.next_priority (s : SweetSuite) : Nat :=
  ((dvalues s.contexts).map CtxData.priority).foldr max 0 + 1

/-- Modelled from the spec: `Suite.add_context(name, context)` — raises
`SuiteError` if the name is already taken, otherwise inserts a fresh context
record with the default priority and empty overrides. -/
def SweetSuite.add_context (s : SweetSuite) (name : String)
    (context : ResolvedContext) : Except SErr SweetSuite :=
  if (dget s.contexts name).isSome then
    .error (.suiteError ("Context already in suite: " ++ name))
  else
    .ok { s with
      contexts := dset s.contexts name ⟨name, context, s.next_priority, "", "", [], []⟩ }

/-- Modelled from the spec: `Suite.remove_context(name)` — raises `SuiteError`
on an unknown name (the convention `SuiteOp.drop_context` relies on). -/
def SweetSuite.remove_context (s : SweetSuite) (name : String) :
    Except SErr SweetSuite :=
  if (dget s.contexts name).isSome then
    .ok { s with contexts := dpop s.contexts name }
  else
    .error (.suiteError ("No such context: " ++ name))

/-- Modelled from the spec: `Suite.rename_context(name, new_name)` — raises
`SuiteError` on an unknown name or an already-taken new name; re-keys the
entry (Python `del` + insert appends the new key at the end). -/
def SweetSuite.rename_context (s : SweetSuite) (name new_name : String) :
    Except SErr SweetSuite :=
  match dget s.contexts name with
  | none => .error (.suiteError ("No such context: " ++ name))
  | some d =>
    if (dget s.contexts new_name).isSome then
      .error (.suiteError ("Duplicate context: " ++ new_name))
    else
      .ok { s with
        contexts := dpop s.contexts name ++ [(new_name, { d with name := new_name })] }

/-- Modelled from the spec: `Suite.update_context(name, context)` — replaces
the context object of an existing record (priority and overrides are kept);
raises `SuiteError` on an unknown name. -/
def SweetSuite.update_context (s : SweetSuite) (name : String)
    (context : ResolvedContext) : Except SErr SweetSuite :=
  match dget s.contexts name with
  | none => .error (.suiteError ("No such context: " ++ name))
  | some d =>
    .ok { s with contexts := dset s.contexts name { d with context := context } }

/-- Modelled from the spec: `Suite.set_context_prefix` — sets the alias
prefix string of an existing record; raises `SuiteError` on an unknown name. -/
def SweetSuite.set_context_pfx (s : SweetSuite) (name p : String) :
    Except SErr SweetSuite :=
  match dget s.contexts name with
  | none => .error (.suiteError ("No such context: " ++ name))
  | some d =>
    .ok { s with contexts := dset s.contexts name { d with pfx := p } }

/-- Modelled from the spec: `Suite.set_context_suffix` — sets the alias
suffix string of an existing record; raises `SuiteError` on an unknown name. -/
def SweetSuite.set_context_sfx (s : SweetSuite) (name p : String) :
    Except SErr SweetSuite :=
  match dget s.contexts name with
  | none => .error (.suiteError ("No such context: " ++ name))
  | some d =>
    .ok { s with contexts := dset s.contexts name { d with sfx := p } }

/-- Modelled from the spec: `SweetSuite.validate_tool(context_name, tool_name)`
— raises `SuiteError` when the context is unknown or the tool is not provided
by the context's resolution (the guard `SuiteOp.update_tool` catches). -/
def SweetSuite.validate_tool (s : SweetSuite) (ctxName tool : String) :
    Except SErr Unit :=
  match dget s.contexts ctxName with
  | none => .error (.suiteError ("No such context: " ++ ctxName))
  | some d =>
    if tool ∈ d.context.tool_names then .ok ()
    else .error (.suiteError ("No such tool: " ++ tool))

/-- Modelled from the spec: `Suite.alias_tool` — records an alias override for
a valid tool; raises `SuiteError` if the tool is already aliased (the reason
`SuiteOp.update_tool` unaliases first). -/
def SweetSuite.alias_tool (s : SweetSuite) (ctxName tool a : String) :
    Except SErr SweetSuite :=
  match dget s.contexts ctxName with
  | none => .error (.suiteError ("No such context: " ++ ctxName))
  | some d =>
    if tool ∈ d.context.tool_names then
      if (dget d.tool_aliases tool).isSome then
        .error (.suiteError ("Tool is already aliased: " ++ tool))
      else
        .ok { s with
          contexts := dset s.contexts ctxName { d with tool_aliases := dset d.tool_aliases tool a } }
    else .error (.suiteError ("No such tool: " ++ tool))

/-- Modelled from the spec: `Suite.unalias_tool` — removes the alias override
of a valid tool if one is present (no error when the tool is unaliased). -/
def SweetSuite.unalias_tool (s : SweetSuite) (ctxName tool : String) :
    Except SErr SweetSuite :=
  match dget s.contexts ctxName with
  | none => .error (.suiteError ("No such context: " ++ ctxName))
  | some d =>
    if tool ∈ d.context.tool_names then
      .ok { s with
        contexts := dset s.contexts ctxName { d with tool_aliases := dpop d.tool_aliases tool } }
    else .error (.suiteError ("No such tool: " ++ tool))

/-- Modelled from the spec: `Suite.hide_tool` — adds a valid tool to the
context's hidden set (set semantics: no duplicate entry). -/
def SweetSuite.hide_tool (s : SweetSuite) (ctxName tool : String) :
    Except SErr SweetSuite :=
  match dget s.contexts ctxName with
  | none => .error (.suiteError ("No such context: " ++ ctxName))
  | some d =>
    if tool ∈ d.context.tool_names then
      .ok { s with
        contexts := dset s.contexts ctxName
          { d with
            hidden_tools :=
              if tool ∈ d.hidden_tools then d.hidden_tools else d.hidden_tools ++ [tool] } }
    else .error (.suiteError ("No such tool: " ++ tool))

/-- Modelled from the spec: `Suite.unhide_tool` — removes a valid tool from
the context's hidden set (set removal: the entry is gone afterwards). -/
def SweetSuite.unhide_tool (s : SweetSuite) (ctxName tool : String) :
    Except SErr SweetSuite :=
  match dget s.contexts ctxName with
  | none => .error (.suiteError ("No such context: " ++ ctxName))
  | some d =>
    if tool ∈ d.context.tool_names then
      .ok { s with
        contexts := dset s.contexts ctxName
          { d with hidden_tools := d.hidden_tools.filter (fun x => x ≠ tool) } }
    else .error (.suiteError ("No such tool: " ++ tool))

/-- Modelled from the spec: the underlying resolution engine's structural
validation run by `Suite.validate` (out of scope per §1/§6 of the spec);
every embedded state is structurally well-formed, so it succeeds. -/
def SweetSuite.validate (_ : SweetSuite) : Except SErr Unit := .ok ()

/-- The serialized suite representation (`Suite.to_dict`): the name-keyed
context records and the description. -/
structure SuiteDict where
  contexts : List (String × CtxData)
  description : String
deriving DecidableEq

/-- Modelled from the spec: `Suite.to_dict`. -/
def SweetSuite.to_dict (s : SweetSuite) : SuiteDict :=
  ⟨s.contexts, s.description⟩

/-- Modelled from the spec: `SweetSuite.from_dict` — rebuilds the collection
from a serialized representation; the derived tool registries start empty. -/
def SweetSuite.from_dict (d : SuiteDict) : SweetSuite :=
  ⟨d.contexts, d.description, [], [], [], []⟩

/-- Modelled from the spec: `SweetSuite.refresh_tools` recomputes the derived
tool registries (the §4.2 resolver, in `sweet/_rezapi.py`, absent from the
sources under verification); the registries are treated as opaque state here,
so the recomputation itself is not modelled and the claims about
`iter_tools` quantify over arbitrary registry contents. -/
def SweetSuite.refresh_tools (s : SweetSuite) : SweetSuite := s

/-! ### The suite operator (`core.py`) -/

/-- The `SuiteCtx` namedtuple returned by `SuiteOp._ctx_data_to_tuple`. -/
structure SuiteCtx where
  name : Option String
  ctx_id : String
  context : Option ResolvedContext
  priority : Nat
  pfx : String
  sfx : String
deriving DecidableEq

/-- The `SuiteTool` namedtuple yielded by `SuiteOp.iter_tools`; `invalid` is
the status code of `Constants` (0 visible, 1 hidden, 2 shadowed, -1 missing). -/
structure SuiteTool where
  name : String
  «alias» : String
  invalid : Int
  ctx_name : Option String
  ctx_id : String
  variant : Option String
deriving DecidableEq

/-- `Constants.it_hidden`. -/
def it_hidden : Int := 1
/-- `Constants.it_shadowed`. -/
def it_shadowed : Int := 2
/-- `Constants.it_missing`. -/
def it_missing : Int := -1

/-- The mutable state owned by a `SuiteOp`: the underlying collection
(`self._suite`) and the context identity map (`self._ctx_names`, ctx_id → name). -/
structure SuiteOpState where
  suite : SweetSuite
  ctx_names : List (String × String)
deriving DecidableEq

/-- `_emit_err(sender, err, fatal)`: if the `sweet:error` signal has
receivers, deliver the event and re-raise only when fatal; with no receiver,
raise unconditionally. Returns the delivered events and the raised error, if
any. -/
def _emit_err (nListeners : Nat) (sender : String) (err : SErr) (fatal : Bool) :
    List Emitted × Option SErr :=
  if 0 < nListeners then
    ([⟨sender, err, fatal⟩], if fatal then some err else none)
  else
    ([], some err)

/-- `_resolved_ctx(requests)`: try `ResolvedContext(requests)`; on any
resolution-engine error substitute `ResolvedContext([])` and report the
original error (sender `"ResolvedContext"`, non-fatal). A `.error` result is
an exception propagating to the caller. -/
def _resolved_ctx (nListeners : Nat) (oracle : Oracle) (requests : List String) :
    List Emitted × Except SErr ResolvedContext :=
  match oracle requests with
  | .ok c => ([], .ok c)
  | .error e =>
    match oracle [] with
    | .error e2 => ([], .error e2)
    | .ok c0 =>
      let p := _emit_err nListeners "ResolvedContext" e false
      (p.1, match p.2 with
            | some x => .error x
            | none => .ok c0)

/-- Python `c[key]` where `c` is a `str`: indexing a string with a string key
always raises `TypeError` (`string indices must be integers`). `SuiteOp.__init__`
evaluates this for every key `c` of `suite.contexts` via `c["name"]`. -/
def pyStrGetItem (_c _key : String) : Except SErr String :=
  .error (.typeError "string indices must be integers")

/-- `SuiteOp.lookup_context(ctx_id)`. -/
def SuiteOp.lookup_context (s : SuiteOpState) (ctx_id : String) : Option String :=
  dget s.ctx_names ctx_id

/-- `SuiteOp._ctx_data_to_tuple(d)` (with `as_resolved=False`); the returned
resolution is a copy, which for the pure embedding is the value itself. -/
def SuiteOp.ctx_data_to_tuple (s : SuiteOpState) (d : CtxData) : SuiteCtx :=
  { name := SuiteOp.lookup_context s d.name, ctx_id := d.name,
    context := some d.context, priority := d.priority, pfx := d.pfx, sfx := d.sfx }

/-- `SuiteOp._tool_data_to_tuple(d, invalid)`. -/
def SuiteOp.tool_data_to_tuple (s : SuiteOpState) (d : ToolData) (invalid : Int) :
    SuiteTool :=
  { name := d.tool_name, «alias» := d.tool_alias, invalid := invalid,
    ctx_name := SuiteOp.lookup_context s d.context_name,
    ctx_id := d.context_name, variant := d.variant }

/-- `SuiteOp.sanity_check()`: a fatal error (always raised, with or without
listeners) when an identity-map id is missing from the collection or a name
is duplicated; otherwise defer to the collection's structural validation. -/
def SuiteOp.sanity_check (nListeners : Nat) (s : SuiteOpState) :
    List Emitted × Option SErr :=
  match (dkeys s.ctx_names).find? (fun id => ! s.suite.has_context id) with
  | some _ =>
    _emit_err nListeners "SuiteOp" (.suiteOpError "Context Id mismatch, invalid suite.") true
  | none =>
    if (dvalues s.ctx_names).Nodup then
      match s.suite.validate with
      | .error e => _emit_err nListeners "SuiteOp" e true
      | .ok _ => ([], none)
    else
      _emit_err nListeners "SuiteOp" (.suiteOpError "Context name duplicated, invalid suite.") true

/-- `SuiteOp.add_context(name, requests)`: abort with a non-fatal
duplicate-name report if the name is taken; otherwise resolve, generate a
fresh id (`newId`), bind id→name and insert into the collection, returning
the `SuiteCtx` snapshot. The result triple is (state, delivered events,
return value or raised error). -/
def SuiteOp.add_context (nListeners : Nat) (oracle : Oracle) (newId : String)
    (s : SuiteOpState) (name : String) (requests : List String) :
    SuiteOpState × List Emitted × Except SErr (Option SuiteCtx) :=
  if name ∈ dvalues s.ctx_names then
    let p := _emit_err nListeners "SuiteOp"
      (.suiteOpError ("Duplicated name " ++ name ++ ", no context added.")) false
    match p.2 with
    | some e => (s, p.1, .error e)
    | none => (s, p.1, .ok none)
  else
    match _resolved_ctx nListeners oracle requests with
    | (em, .error e) => (s, em, .error e)
    | (em, .ok context) =>
      let cn := dset s.ctx_names newId name
      match s.suite.add_context newId context with
      | .error e => ({ s with ctx_names := cn }, em, .error e)
      | .ok su =>
        let s' : SuiteOpState := ⟨su, cn⟩
        match dget su.contexts newId with
        | some d => (s', em, .ok (some (SuiteOp.ctx_data_to_tuple s' d)))
        | none => (s', em, .error (.suiteError "KeyError"))

/-- `SuiteOp.drop_context(ctx_id)`: pop the identity binding (absent id
tolerated) and remove the context, forgiving the collection's `SuiteError`
for an unknown id. The source has no signal emission and no uncaught raise
on any path, so the embedding returns only the new state. -/
def SuiteOp.drop_context (s : SuiteOpState) (ctx_id : String) : SuiteOpState :=
  let cn := dpop s.ctx_names ctx_id
  match s.suite.remove_context ctx_id with
  | .ok su => ⟨su, cn⟩
  | .error _ => ⟨s.suite, cn⟩

/-- `SuiteOp.rename_context(ctx_id, new_name)`: on a bound id and an unused
name, update the identity map; otherwise report a non-fatal error and leave
state unchanged. -/
def SuiteOp.rename_context (nListeners : Nat) (s : SuiteOpState)
    (ctx_id new_name : String) : SuiteOpState × List Emitted × Option SErr :=
  if s.suite.has_context ctx_id then
    if new_name ∈ dvalues s.ctx_names then
      let p := _emit_err nListeners "SuiteOp"
        (.suiteOpError ("Duplicated name " ++ new_name ++ ", no context renamed.")) false
      (s, p.1, p.2)
    else
      ({ s with ctx_names := dset s.ctx_names ctx_id new_name }, [], none)
  else
    let p := _emit_err nListeners "SuiteOp"
      (.suiteOpError ("Context Id " ++ ctx_id ++ " not exists, no context renamed.")) false
    (s, p.1, p.2)

/-- `SuiteOp.update_context(ctx_id, requests, prefix, suffix)`: each non-None
field is pushed to the collection in order (requests first, re-resolving);
errors raised by the collection are not caught. -/
def SuiteOp.update_context (nListeners : Nat) (oracle : Oracle) (s : SuiteOpState)
    (ctx_id : String) (requests : Option (List String)) (pfx sfx : Option String) :
    SuiteOpState × List Emitted × Option SErr :=
  let r1 : SuiteOpState × List Emitted × Option SErr :=
    match requests with
    | none => (s, [], none)
    | some reqs =>
      match _resolved_ctx nListeners oracle reqs with
      | (em, .error e) => (s, em, some e)
      | (em, .ok c) =>
        match s.suite.update_context ctx_id c with
        | .error e => (s, em, some e)
        | .ok su => (⟨su, s.ctx_names⟩, em, none)
  match r1 with
  | (s1, em, some e) => (s1, em, some e)
  | (s1, em, none) =>
    let r2 : SuiteOpState × List Emitted × Option SErr :=
      match pfx with
      | none => (s1, em, none)
      | some p =>
        match s1.suite.set_context_pfx ctx_id p with
        | .error e => (s1, em, some e)
        | .ok su => (⟨su, s1.ctx_names⟩, em, none)
    match r2 with
    | (s2, em2, some e) => (s2, em2, some e)
    | (s2, em2, none) =>
      match sfx with
      | none => (s2, em2, none)
      | some p =>
        match s2.suite.set_context_sfx ctx_id p with
        | .error e => (s2, em2, some e)
        | .ok su => (⟨su, s2.ctx_names⟩, em2, none)

/-- `SuiteOp.update_tool(ctx_id, tool_name, new_alias, set_hidden)`: an
invalid context/tool pair is reported non-fatally and nothing changes;
`new_alias=None` leaves the alias override untouched, `new_alias=""`
unaliases only, any other string unaliases then aliases; `set_hidden`
None/True/False leaves/hides/unhides. -/
def SuiteOp.update_tool (nListeners : Nat) (s : SuiteOpState)
    (ctx_id tool_name : String) (new_alias : Option String)
    (set_hidden : Option Bool) : SuiteOpState × List Emitted × Option SErr :=
  match s.suite.validate_tool ctx_id tool_name with
  | .error e =>
    let p := _emit_err nListeners "SuiteOp" e false
    (s, p.1, p.2)
  | .ok _ =>
    let r1 : SuiteOpState × Option SErr :=
      match new_alias with
      | none => (s, none)
      | some a =>
        match s.suite.unalias_tool ctx_id tool_name with
        | .error e => (s, some e)
        | .ok su1 =>
          if a = "" then (⟨su1, s.ctx_names⟩, none)
          else
            match su1.alias_tool ctx_id tool_name a with
            | .error e => (⟨su1, s.ctx_names⟩, some e)
            | .ok su2 => (⟨su2, s.ctx_names⟩, none)
    match r1 with
    | (s1, some e) => (s1, [], some e)
    | (s1, none) =>
      match set_hidden with
      | none => (s1, [], none)
      | some b =>
        match (if b then s1.suite.hide_tool ctx_id tool_name
               else s1.suite.unhide_tool ctx_id tool_name) with
        | .error e => (s1, [], some e)
        | .ok su => (⟨su, s1.ctx_names⟩, [], none)

/-- Stable descending insertion by priority: the embedding of Python's stable
`sorted(..., key=priority, reverse=True)` used by `iter_contexts`. -/
def insertByPriority (d : CtxData) : List CtxData → List CtxData
  | [] => [d]
  | x :: t => if x.priority < d.priority then d :: x :: t else x :: insertByPriority d t

/-- `SuiteOp.iter_contexts()` (default `ascending=False`): context snapshots
sorted by priority, highest first, stable on insertion order. -/
def SuiteOp.iter_contexts (s : SuiteOpState) : List SuiteCtx :=
  ((dvalues s.suite.contexts).foldr insertByPriority []).map
    (SuiteOp.ctx_data_to_tuple s)

/-- `SuiteOp.iter_tools()`: one pass over the refreshed tool registries —
visible entries, hidden entries, shadowed entries, then every cached
(saved) alias not seen among the first three categories, reported as missing
with the last-known alias and name. `seen` is only read by the missing
loop, which runs after all three other categories have been yielded, so it
equals the full alias set of those categories. -/
def SuiteOp.iter_tools (s : SuiteOpState) : List SuiteTool :=
  let vis := dvalues s.suite.tools
  let hid := s.suite.hidden_tools
  let shad := (s.suite.tool_conflicts.map Prod.snd).flatten
  let seen := vis.map ToolData.tool_alias ++ hid.map ToolData.tool_alias ++
    shad.map ToolData.tool_alias
  vis.map (fun d => SuiteOp.tool_data_to_tuple s d 0) ++
    hid.map (fun d => SuiteOp.tool_data_to_tuple s d it_hidden) ++
    shad.map (fun d => SuiteOp.tool_data_to_tuple s d it_shadowed) ++
    (s.suite.saved_tools.map (fun p =>
      (p.2.filter (fun q => q.1 ∉ seen)).map (fun q =>
        SuiteOp.tool_data_to_tuple s ⟨q.2, q.1, p.1, none⟩ it_missing))).flatten

/-- `SuiteOp.__init__(suite)`: re-key every seed context name to a freshly
generated id and populate the id→name map from the seed's names, then run
`sanity_check` and `refresh_tools`. The id→name dict comprehension evaluates
`c["name"]` for every key `c` of `suite.contexts`, and those keys are the
context name strings, so Python raises `TypeError` as soon as the seed holds
at least one context (`pyStrGetItem`). `freshIds` supplies the
`_unique_id()` outputs. -/
def SuiteOp.init (nListeners : Nat) (freshIds : List String) (suite : SweetSuite) :
    List Emitted × Except SErr SuiteOpState :=
  match (dkeys suite.contexts).mapM (fun c => pyStrGetItem c "name") with
  | .error e => ([], .error e)
  | .ok names =>
    let cn := freshIds.zip names
    match cn.foldlM (fun (su : SweetSuite) p => su.rename_context p.2 p.1) suite with
    | .error e => ([], .error e)
    | .ok su =>
      let s : SuiteOpState := ⟨su, cn⟩
      let p := SuiteOp.sanity_check nListeners s
      match p.2 with
      | some e => (p.1, .error e)
      | none => (p.1, .ok ⟨s.suite.refresh_tools, s.ctx_names⟩)

/-- `SuiteOp.to_dict()`: `sanity_check`, swap every ctx_id back to its name,
serialize, and restore the ids (the restoring renames return `self._suite`
to its original value, so only the serialized representation is returned). -/
def SuiteOp.to_dict (nListeners : Nat) (s : SuiteOpState) :
    List Emitted × Except SErr SuiteDict :=
  let p := SuiteOp.sanity_check nListeners s
  match p.2 with
  | some e => (p.1, .error e)
  | none =>
    match s.ctx_names.foldlM (fun (su : SweetSuite) q => su.rename_context q.1 q.2) s.suite with
    | .error e => (p.1, .error e)
    | .ok su => (p.1, .ok su.to_dict)

/-! ### Concrete fixtures -/

/-- A resolution oracle that succeeds on every request list, exposing two
tools. -/
def okOracle : Oracle := fun reqs => .ok ⟨reqs, true, ["alpha", "beta"]⟩

/-- An oracle that fails on every non-empty request list and resolves the
empty one (so `ResolvedContext([])` in the except-branch succeeds). -/
def failOracle : Oracle := fun reqs =>
  if reqs = [] then .ok ⟨[], true, []⟩ else .error (.resolveError "boom")

/-- A fresh, empty suite operator, as built by `SuiteOp()` with no seed. -/
def freshOp : SuiteOpState := ⟨SweetSuite.empty, []⟩

/-- The operator state after `add_context("a", [])` on a fresh operator with
one listener attached (generated id `"id1"`). -/
def opWithA : SuiteOpState := (SuiteOp.add_context 1 okOracle "id1" freshOp "a" []).1

/-! ### Claims -/

/-- C4: with no listener on the error channel the error is raised to the
caller even when flagged non-fatal; with at least one listener the event is
delivered, a fatal error is still re-raised afterwards, and a non-fatal one
is not raised. -/
theorem error_channel_policy (nListeners : Nat) (sender : String) (err : SErr)
    (fatal : Bool) :
    (nListeners = 0 → _emit_err nListeners sender err fatal = ([], some err)) ∧
    (0 < nListeners →
      _emit_err nListeners sender err fatal =
        ([⟨sender, err, fatal⟩], if fatal then some err else none)) := by
  constructor
  · intro h
    subst h
    rfl
  · intro h
    simp [_emit_err, h]

/-- C4 witness: the three channel behaviours at concrete inputs. -/
theorem error_channel_policy_witness :
    _emit_err 0 "SuiteOp" (.suiteOpError "e") false = ([], some (.suiteOpError "e")) ∧
    _emit_err 2 "SuiteOp" (.suiteOpError "e") true =
      ([⟨"SuiteOp", .suiteOpError "e", true⟩], some (.suiteOpError "e")) ∧
    _emit_err 2 "SuiteOp" (.suiteOpError "e") false =
      ([⟨"SuiteOp", .suiteOpError "e", false⟩], none) := by
  refine ⟨(error_channel_policy 0 "SuiteOp" (.suiteOpError "e") false).1 rfl, ?_, ?_⟩
  · simpa using (error_channel_policy 2 "SuiteOp" (.suiteOpError "e") true).2 (by decide)
  · simpa using (error_channel_policy 2 "SuiteOp" (.suiteOpError "e") false).2 (by decide)

/-- The serialized representation `to_dict()` produces for `opWithA`: the
context re-keyed back to its user-facing name `"a"`. -/
def dictA : SuiteDict :=
  ⟨[("a", ⟨"a", ⟨[], true, ["alpha", "beta"]⟩, 1, "", "", [], []⟩)], ""⟩

/-- C1: `to_dict()` of an operator holding one context serializes fine, but
reconstructing a `SuiteOp` from that representation raises `TypeError`: the
id→name comprehension in `SuiteOp.__init__` subscripts each key of
`suite.contexts` — a name string — with `"name"`. The claimed round-trip
therefore crashes for every operator with at least one context. -/
theorem roundtrip_reconstruction_raises_type_error :
    (SuiteOp.to_dict 1 opWithA).2 = .ok dictA ∧
    SuiteOp.init 1 ["fresh1"] (SweetSuite.from_dict dictA) =
      ([], .error (.typeError "string indices must be integers")) := by
  constructor
  · rfl
  · rfl

/-- C2 counterexample: renaming the context named `"a"` to its own current
name `"a"` reports a duplicate-name error through the channel — the claim
says it reports no error. -/
theorem rename_to_own_name_reports_error :
    (SuiteOp.rename_context 1 opWithA "id1" "a").2.1 =
      [⟨"SuiteOp", .suiteOpError "Duplicated name a, no context renamed.", false⟩] := by
  rfl

/-- C2 (amended): renaming a bound context to its own current name reports a
non-fatal duplicate-name error through the channel (raising nothing when a
listener is attached) and leaves the identity map, the whole state and the
tool resolution output unchanged. -/
theorem rename_to_own_name_reports_and_preserves (nListeners : Nat)
    (s : SuiteOpState) (ctx_id nm : String) (hn : 0 < nListeners)
    (hc : s.suite.has_context ctx_id = true)
    (hname : dget s.ctx_names ctx_id = some nm) :
    SuiteOp.rename_context nListeners s ctx_id nm =
      (s, [⟨"SuiteOp", .suiteOpError ("Duplicated name " ++ nm ++ ", no context renamed."),
        false⟩], none) ∧
    SuiteOp.iter_tools (SuiteOp.rename_context nListeners s ctx_id nm).1 =
      SuiteOp.iter_tools s := by
  have hmem : nm ∈ dvalues s.ctx_names := dget_some_mem_values hname
  have h1 : SuiteOp.rename_context nListeners s ctx_id nm =
      (s, [⟨"SuiteOp", .suiteOpError ("Duplicated name " ++ nm ++ ", no context renamed."),
        false⟩], none) := by
    simp [SuiteOp.rename_context, hc, hmem, _emit_err, hn]
  exact ⟨h1, by rw [h1]⟩

/-- C2 witness: the amended behaviour at the concrete one-context operator. -/
theorem rename_to_own_name_witness :
    SuiteOp.rename_context 1 opWithA "id1" "a" =
      (opWithA, [⟨"SuiteOp", .suiteOpError "Duplicated name a, no context renamed.",
        false⟩], none) :=
  (rename_to_own_name_reports_and_preserves 1 opWithA "id1" "a" (by decide)
    (by decide) (by decide)).1

/-- C6: `add_context` with an already-bound name reports the duplicate-name
error with the non-fatal flag and aborts with no partial state: the state is
unchanged, so no context and no identity-map entry is added (with zero
listeners the channel escalation raises the same non-fatal-flagged error). -/
theorem add_context_duplicate_name_aborts (nListeners : Nat) (oracle : Oracle)
    (newId : String) (s : SuiteOpState) (name : String) (requests : List String)
    (hdup : name ∈ dvalues s.ctx_names) :
    (SuiteOp.add_context nListeners oracle newId s name requests).1 = s ∧
    (SuiteOp.add_context nListeners oracle newId s name requests).2.1 =
      (if 0 < nListeners then
        [⟨"SuiteOp", .suiteOpError ("Duplicated name " ++ name ++ ", no context added."),
          false⟩]
       else []) ∧
    (SuiteOp.add_context nListeners oracle newId s name requests).2.2 =
      (if 0 < nListeners then .ok none
       else .error (.suiteOpError ("Duplicated name " ++ name ++ ", no context added."))) := by
  by_cases hn : 0 < nListeners <;>
    simp [SuiteOp.add_context, hdup, _emit_err, hn]

/-- C6 witness: `add_context("a", []); add_context("a", [])` — the second
call leaves the state untouched, with exactly one context named `"a"`. -/
theorem add_context_duplicate_name_witness :
    (SuiteOp.add_context 1 okOracle "id2" opWithA "a" []).1 = opWithA ∧
    dvalues opWithA.ctx_names = ["a"] ∧
    dkeys opWithA.suite.contexts = ["id1"] :=
  ⟨(add_context_duplicate_name_aborts 1 okOracle "id2" opWithA "a" [] (by decide)).1,
    by decide, by decide⟩

/-- C9: dropping an id absent from both the collection and the identity map
is a no-op — the state (and hence the later `sanity_check` outcome) is
unchanged, and `drop_context` has no emission or raise on any path; for an
id present in a duplicate-free state, both the context and the identity
binding are removed. -/
theorem drop_context_spec (nListeners : Nat) (s : SuiteOpState) (ctx_id : String) :
    (dget s.suite.contexts ctx_id = none → dget s.ctx_names ctx_id = none →
      SuiteOp.drop_context s ctx_id = s ∧
      SuiteOp.sanity_check nListeners (SuiteOp.drop_context s ctx_id) =
        SuiteOp.sanity_check nListeners s) ∧
    ((dkeys s.ctx_names).Nodup → (dkeys s.suite.contexts).Nodup →
      dget (SuiteOp.drop_context s ctx_id).ctx_names ctx_id = none ∧
      (SuiteOp.drop_context s ctx_id).suite.has_context ctx_id = false) := by
  constructor
  · intro h1 h2
    have hstate : SuiteOp.drop_context s ctx_id = s := by
      simp [SuiteOp.drop_context, SweetSuite.remove_context, h1, dpop_of_absent h2]
    exact ⟨hstate, by rw [hstate]⟩
  · intro hnd1 hnd2
    by_cases hmem : (dget s.suite.contexts ctx_id).isSome
    · constructor
      · simp [SuiteOp.drop_context, SweetSuite.remove_context, hmem, dget_dpop_self hnd1]
      · simp [SuiteOp.drop_context, SweetSuite.remove_context, hmem, SweetSuite.has_context,
          dget_dpop_self hnd2]
    · constructor
      · simp [SuiteOp.drop_context, SweetSuite.remove_context, hmem, dget_dpop_self hnd1]
      · simp only [Option.isSome] at hmem
        have h1 : dget s.suite.contexts ctx_id = none := by
          cases h : dget s.suite.contexts ctx_id
          · rfl
          · rw [h] at hmem
            simp at hmem
        simp [SuiteOp.drop_context, SweetSuite.remove_context, h1, SweetSuite.has_context]

/-- C9 witness: dropping the unknown id `"zz"` from the one-context operator
changes nothing, and dropping the bound id `"id1"` removes both records. -/
theorem drop_context_witness :
    SuiteOp.drop_context opWithA "zz" = opWithA ∧
    dget (SuiteOp.drop_context opWithA "id1").ctx_names "id1" = none ∧
    (SuiteOp.drop_context opWithA "id1").suite.has_context "id1" = false :=
  ⟨((drop_context_spec 1 opWithA "zz").1 (by decide) (by decide)).1,
    ((drop_context_spec 1 opWithA "id1").2 (by decide) (by decide)).1,
    ((drop_context_spec 1 opWithA "id1").2 (by decide) (by decide)).2⟩

/-- C10: for a validly bound context and tool, `update_tool` with
`new_alias=""` removes any alias override (no entry for the tool remains, so
it is exposed under its bare name) without installing a new one;
`new_alias=None` leaves the alias overrides unchanged; `set_hidden=None`
leaves the hidden set unchanged while `set_hidden=True`/`False` puts the
tool into / removes it from the hidden set. No error is reported or raised
in any of these cases. -/
theorem update_tool_field_semantics (nListeners : Nat) (s : SuiteOpState)
    (ctx_id tool : String) (d : CtxData)
    (hc : dget s.suite.contexts ctx_id = some d)
    (ht : tool ∈ d.context.tool_names)
    (hk : (dkeys d.tool_aliases).Nodup) :
    (SuiteOp.update_tool nListeners s ctx_id tool (some "") none =
      (⟨{ s.suite with
          contexts := dset s.suite.contexts ctx_id
            { d with tool_aliases := dpop d.tool_aliases tool } }, s.ctx_names⟩, [], none) ∧
      dget (dpop d.tool_aliases tool) tool = none) ∧
    SuiteOp.update_tool nListeners s ctx_id tool none none = (s, [], none) ∧
    (SuiteOp.update_tool nListeners s ctx_id tool none (some true) =
      (⟨{ s.suite with
          contexts := dset s.suite.contexts ctx_id
            { d with
              hidden_tools :=
                if tool ∈ d.hidden_tools then d.hidden_tools
                else d.hidden_tools ++ [tool] } }, s.ctx_names⟩, [], none) ∧
      tool ∈ (if tool ∈ d.hidden_tools then d.hidden_tools else d.hidden_tools ++ [tool])) ∧
    (SuiteOp.update_tool nListeners s ctx_id tool none (some false) =
      (⟨{ s.suite with
          contexts := dset s.suite.contexts ctx_id
            { d with hidden_tools := d.hidden_tools.filter (fun x => x ≠ tool) } },
        s.ctx_names⟩, [], none) ∧
      tool ∉ d.hidden_tools.filter (fun x => x ≠ tool)) := by
  refine ⟨⟨?_, dget_dpop_self hk⟩, ?_, ⟨?_, ?_⟩, ⟨?_, ?_⟩⟩
  · simp [SuiteOp.update_tool, SweetSuite.validate_tool, SweetSuite.unalias_tool, hc, ht]
  · simp [SuiteOp.update_tool, SweetSuite.validate_tool, hc, ht]
  · simp [SuiteOp.update_tool, SweetSuite.validate_tool, SweetSuite.hide_tool, hc, ht]
  · by_cases hh : tool ∈ d.hidden_tools <;> simp [hh]
  · simp [SuiteOp.update_tool, SweetSuite.validate_tool, SweetSuite.unhide_tool, hc, ht]
  · simp [List.mem_filter]

/-- C10 witness: the four field combinations on the concrete one-context
operator, for its tool `"alpha"`. -/
theorem update_tool_field_semantics_witness :
    SuiteOp.update_tool 1 opWithA "id1" "alpha" none none = (opWithA, [], none) ∧
    dget (dpop (⟨"id1", ⟨[], true, ["alpha", "beta"]⟩, 1, "", "", [], []⟩ : CtxData).tool_aliases
      "alpha") "alpha" = none :=
  ⟨(update_tool_field_semantics 1 opWithA "id1" "alpha"
      ⟨"id1", ⟨[], true, ["alpha", "beta"]⟩, 1, "", "", [], []⟩
      (by decide) (by decide) (by decide)).2.1,
    ((update_tool_field_semantics 1 opWithA "id1" "alpha"
      ⟨"id1", ⟨[], true, ["alpha", "beta"]⟩, 1, "", "", [], []⟩
      (by decide) (by decide) (by decide)).1).2⟩

/-- C5 counterexample: with zero listeners attached, a resolution failure in
`add_context` escalates through the error channel and the original error is
raised to the caller — `add_context` does raise due to resolution failure,
and no state is updated (no substituted resolution is stored). -/
theorem add_context_raises_without_listener :
    SuiteOp.add_context 0 failOracle "id1" freshOp "a" ["bad"] =
      (freshOp, [], .error (.resolveError "boom")) := by
  rfl

/-- C5 (amended): when at least one listener is attached, a
resolution-engine failure is caught, `ResolvedContext([])` is substituted,
the original error is reported non-fatally with sender `"ResolvedContext"`,
and `add_context` / `update_context` do not raise: `add_context` returns
normally having stored the substituted resolution under the fresh id, and
`update_context` replaces the context's resolution with the substituted
one. With zero listeners the channel escalation re-raises the original
error and nothing is added or updated. -/
theorem resolution_failure_is_substituted (nListeners : Nat) (oracle : Oracle)
    (reqs : List String) (e : SErr) (c0 : ResolvedContext)
    (hn : 0 < nListeners) (hfail : oracle reqs = .error e)
    (hempty : oracle [] = .ok c0) :
    (∀ s name newId, name ∉ dvalues s.ctx_names →
      dget s.suite.contexts newId = none →
      (SuiteOp.add_context nListeners oracle newId s name reqs).2.1 =
        [⟨"ResolvedContext", e, false⟩] ∧
      (∃ v, (SuiteOp.add_context nListeners oracle newId s name reqs).2.2 = .ok v) ∧
      dget (SuiteOp.add_context nListeners oracle newId s name reqs).1.suite.contexts newId =
        some ⟨newId, c0, s.suite.next_priority, "", "", [], []⟩ ∧
      dget (SuiteOp.add_context nListeners oracle newId s name reqs).1.ctx_names newId =
        some name) ∧
    (∀ s ctx_id d, dget s.suite.contexts ctx_id = some d →
      SuiteOp.update_context nListeners oracle s ctx_id (some reqs) none none =
        (⟨{ s.suite with
            contexts := dset s.suite.contexts ctx_id { d with context := c0 } },
          s.ctx_names⟩, [⟨"ResolvedContext", e, false⟩], none)) := by
  constructor
  · intro s name newId hname hid
    have hadd : SuiteOp.add_context nListeners oracle newId s name reqs =
        (⟨{ s.suite with
            contexts := dset s.suite.contexts newId
              ⟨newId, c0, s.suite.next_priority, "", "", [], []⟩ },
          dset s.ctx_names newId name⟩,
         [⟨"ResolvedContext", e, false⟩],
         .ok (some (SuiteOp.ctx_data_to_tuple
            ⟨{ s.suite with
               contexts := dset s.suite.contexts newId
                 ⟨newId, c0, s.suite.next_priority, "", "", [], []⟩ },
              dset s.ctx_names newId name⟩
            ⟨newId, c0, s.suite.next_priority, "", "", [], []⟩))) := by
      simp [SuiteOp.add_context, hname, _resolved_ctx, hfail, hempty, _emit_err, hn,
        SweetSuite.add_context, hid, dget_dset_self]
    rw [hadd]
    refine ⟨rfl, ⟨_, rfl⟩, ?_, ?_⟩
    · exact dget_dset_self s.suite.contexts newId _
    · exact dget_dset_self s.ctx_names newId name
  · intro s ctx_id d hc
    simp [SuiteOp.update_context, _resolved_ctx, hfail, hempty, _emit_err, hn,
      SweetSuite.update_context, hc]

/-- C5 witness: with one listener and a failing oracle, `add_context` stores
the substituted empty resolution and reports the original error, and
`update_context` on the bound context replaces its resolution. -/
theorem resolution_failure_is_substituted_witness :
    (SuiteOp.add_context 1 failOracle "id9" freshOp "a" ["bad"]).2.1 =
      [⟨"ResolvedContext", .resolveError "boom", false⟩] ∧
    dget (SuiteOp.add_context 1 failOracle "id9" freshOp "a" ["bad"]).1.suite.contexts "id9" =
      some ⟨"id9", ⟨[], true, []⟩, 1, "", "", [], []⟩ ∧
    SuiteOp.update_context 1 failOracle opWithA "id1" (some ["bad"]) none none =
      (⟨{ opWithA.suite with
          contexts := dset opWithA.suite.contexts "id1"
            ⟨"id1", ⟨[], true, []⟩, 1, "", "", [], []⟩ }, opWithA.ctx_names⟩,
        [⟨"ResolvedContext", .resolveError "boom", false⟩], none) := by
  have h := resolution_failure_is_substituted 1 failOracle ["bad"]
    (.resolveError "boom") ⟨[], true, []⟩ (by decide) rfl rfl
  refine ⟨(h.1 freshOp "a" "id9" (by decide) (by decide)).1,
    (h.1 freshOp "a" "id9" (by decide) (by decide)).2.2.1, ?_⟩
  exact h.2 opWithA "id1" ⟨"id1", ⟨[], true, ["alpha", "beta"]⟩, 1, "", "", [], []⟩ (by decide)

/-- C7 counterexample: `update_context` with an unknown ctx_id does not
report through the error channel — the underlying collection's `SuiteError`
propagates to the caller (no event is delivered, the error is raised). -/
theorem update_context_unknown_id_raises :
    SuiteOp.update_context 1 okOracle freshOp "ghost" (some ["a"]) none none =
      (freshOp, [], some (.suiteError "No such context: ghost")) := by
  rfl

/-- C7 (amended): `update_context` with a ctx_id not present in the suite
raises the collection's `SuiteError` to the caller, uncaught and unreported
(no channel event), leaving the state unchanged; with a present ctx_id, every
omitted (`None`) field is left untouched (all-`None` is a complete no-op) and
supplying `requests` re-resolves and replaces the context's resolution. -/
theorem update_context_field_semantics (nListeners : Nat) (oracle : Oracle)
    (s : SuiteOpState) (ctx_id : String) :
    (∀ reqs c, oracle reqs = .ok c → dget s.suite.contexts ctx_id = none →
      SuiteOp.update_context nListeners oracle s ctx_id (some reqs) none none =
        (s, [], some (.suiteError ("No such context: " ++ ctx_id)))) ∧
    (∀ p, dget s.suite.contexts ctx_id = none →
      SuiteOp.update_context nListeners oracle s ctx_id none (some p) none =
        (s, [], some (.suiteError ("No such context: " ++ ctx_id)))) ∧
    (∀ reqs c d, oracle reqs = .ok c → dget s.suite.contexts ctx_id = some d →
      SuiteOp.update_context nListeners oracle s ctx_id (some reqs) none none =
        (⟨{ s.suite with
            contexts := dset s.suite.contexts ctx_id { d with context := c } },
          s.ctx_names⟩, [], none)) ∧
    (SuiteOp.update_context nListeners oracle s ctx_id none none none = (s, [], none)) ∧
    (∀ p d, dget s.suite.contexts ctx_id = some d →
      SuiteOp.update_context nListeners oracle s ctx_id none (some p) none =
        (⟨{ s.suite with
            contexts := dset s.suite.contexts ctx_id { d with pfx := p } },
          s.ctx_names⟩, [], none)) := by
  refine ⟨?_, ?_, ?_, ?_, ?_⟩
  · intro reqs c hok hid
    simp [SuiteOp.update_context, _resolved_ctx, hok, SweetSuite.update_context, hid]
  · intro p hid
    simp [SuiteOp.update_context, SweetSuite.set_context_pfx, hid]
  · intro reqs c d hok hc
    simp [SuiteOp.update_context, _resolved_ctx, hok, SweetSuite.update_context, hc]
  · simp [SuiteOp.update_context]
  · intro p d hc
    simp [SuiteOp.update_context, SweetSuite.set_context_pfx, hc]

/-- C7 witness: the unknown-id raise and the per-field updates at the
concrete one-context operator. -/
theorem update_context_field_semantics_witness :
    SuiteOp.update_context 1 okOracle opWithA "nope" none (some "p") none =
      (opWithA, [], some (.suiteError "No such context: nope")) ∧
    SuiteOp.update_context 1 okOracle opWithA "id1" none none none =
      (opWithA, [], none) ∧
    SuiteOp.update_context 1 okOracle opWithA "id1" none (some "p") none =
      (⟨{ opWithA.suite with
          contexts := dset opWithA.suite.contexts "id1"
            ⟨"id1", ⟨[], true, ["alpha", "beta"]⟩, 1, "p", "", [], []⟩ },
        opWithA.ctx_names⟩, [], none) := by
  refine ⟨(update_context_field_semantics 1 okOracle opWithA "nope").2.1 "p" (by decide),
    (update_context_field_semantics 1 okOracle opWithA "id1").2.2.2.1, ?_⟩
  exact (update_context_field_semantics 1 okOracle opWithA "id1").2.2.2.2 "p"
    ⟨"id1", ⟨[], true, ["alpha", "beta"]⟩, 1, "", "", [], []⟩ (by decide)

/-! ### Tool iteration (C8) -/

/-- The aliases of all live tool entries: visible, hidden and shadowed —
exactly the `seen` set by the time the missing loop of `iter_tools` runs. -/
def liveAliases (s : SuiteOpState) : List String :=
  (dvalues s.suite.tools).map ToolData.tool_alias ++
    s.suite.hidden_tools.map ToolData.tool_alias ++
    ((s.suite.tool_conflicts.map Prod.snd).flatten).map ToolData.tool_alias

/-- The flattened saved/cached tool set: (context name, alias, tool name)
triples. -/
def savedEntries (s : SuiteOpState) : List (String × String × String) :=
  (s.suite.saved_tools.map (fun p => p.2.map (fun q => (p.1, q.1, q.2)))).flatten

/-- The visible category of `iter_tools`. -/
def visPart (s : SuiteOpState) : List SuiteTool :=
  (dvalues s.suite.tools).map (fun d => SuiteOp.tool_data_to_tuple s d 0)

/-- The hidden category of `iter_tools`. -/
def hidPart (s : SuiteOpState) : List SuiteTool :=
  s.suite.hidden_tools.map (fun d => SuiteOp.tool_data_to_tuple s d it_hidden)

/-- The shadowed category of `iter_tools`. -/
def shadPart (s : SuiteOpState) : List SuiteTool :=
  ((s.suite.tool_conflicts.map Prod.snd).flatten).map
    (fun d => SuiteOp.tool_data_to_tuple s d it_shadowed)

/-- The missing category of `iter_tools`: saved entries whose alias is not
among the live aliases. -/
def missPart (s : SuiteOpState) : List SuiteTool :=
  (s.suite.saved_tools.map (fun p =>
    (p.2.filter (fun q => q.1 ∉ liveAliases s)).map (fun q =>
      SuiteOp.tool_data_to_tuple s ⟨q.2, q.1, p.1, none⟩ it_missing))).flatten

theorem iter_tools_eq_parts (s : SuiteOpState) :
    SuiteOp.iter_tools s = visPart s ++ hidPart s ++ shadPart s ++ missPart s := rfl

theorem mem_visPart_invalid {s : SuiteOpState} {t : SuiteTool}
    (h : t ∈ visPart s) : t.invalid = 0 := by
  rcases List.mem_map.mp h with ⟨d, _, rfl⟩
  rfl

theorem mem_hidPart_invalid {s : SuiteOpState} {t : SuiteTool}
    (h : t ∈ hidPart s) : t.invalid = it_hidden ∧ t.«alias» ∈ liveAliases s := by
  rcases List.mem_map.mp h with ⟨d, hd, rfl⟩
  refine ⟨rfl, ?_⟩
  simp only [liveAliases, List.mem_append, SuiteOp.tool_data_to_tuple]
  exact Or.inl (Or.inr (List.mem_map.mpr ⟨d, hd, rfl⟩))

theorem mem_shadPart_invalid {s : SuiteOpState} {t : SuiteTool}
    (h : t ∈ shadPart s) : t.invalid = it_shadowed ∧ t.«alias» ∈ liveAliases s := by
  rcases List.mem_map.mp h with ⟨d, hd, rfl⟩
  refine ⟨rfl, ?_⟩
  simp only [liveAliases, List.mem_append, SuiteOp.tool_data_to_tuple]
  exact Or.inr (List.mem_map.mpr ⟨d, hd, rfl⟩)

theorem mem_missPart_iff {s : SuiteOpState} {t : SuiteTool} :
    t ∈ missPart s ↔ ∃ p ∈ s.suite.saved_tools, ∃ q ∈ p.2,
      q.1 ∉ liveAliases s ∧
      t = SuiteOp.tool_data_to_tuple s ⟨q.2, q.1, p.1, none⟩ it_missing := by
  constructor
  · intro h
    rcases List.mem_flatten.mp h with ⟨l, hl, htl⟩
    rcases List.mem_map.mp hl with ⟨p, hp, rfl⟩
    rcases List.mem_map.mp htl with ⟨q, hq, rfl⟩
    rcases List.mem_filter.mp hq with ⟨hq2, hq3⟩
    exact ⟨p, hp, q, hq2, by simpa using hq3, rfl⟩
  · rintro ⟨p, hp, q, hq, hlive, rfl⟩
    refine List.mem_flatten.mpr ⟨(p.2.filter (fun q => q.1 ∉ liveAliases s)).map
      (fun q => SuiteOp.tool_data_to_tuple s ⟨q.2, q.1, p.1, none⟩ it_missing),
      List.mem_map.mpr ⟨p, hp, rfl⟩, ?_⟩
    exact List.mem_map.mpr ⟨q, List.mem_filter.mpr ⟨hq, by simpa using hlive⟩, rfl⟩

theorem mem_iter_tools_missing {s : SuiteOpState} {t : SuiteTool}
    (h : t ∈ SuiteOp.iter_tools s) (hm : t.invalid = it_missing) :
    t ∈ missPart s := by
  rw [iter_tools_eq_parts] at h
  simp only [List.mem_append] at h
  rcases h with ((h | h) | h) | h
  · exact absurd (mem_visPart_invalid h) (by rw [hm]; decide)
  · exact absurd (mem_hidPart_invalid h).1 (by rw [hm]; decide)
  · exact absurd (mem_shadPart_invalid h).1 (by rw [hm]; decide)
  · exact h

/-- C8: a saved/cached tool is reported missing (keyed by its last-known
alias) exactly when that alias occurs in no currently visible, hidden or
shadowed entry; no alias is reported both missing and hidden or both
missing and shadowed; and the iteration yields the four categories in the
order visible, hidden, shadowed, missing. -/
theorem iter_tools_missing_spec (s : SuiteOpState) (a : String) :
    ((∃ t ∈ SuiteOp.iter_tools s, t.invalid = it_missing ∧ t.«alias» = a) ↔
      ((∃ en ∈ savedEntries s, en.2.1 = a) ∧ a ∉ liveAliases s)) ∧
    (∀ t ∈ SuiteOp.iter_tools s, t.invalid = it_missing →
      ∀ t2 ∈ SuiteOp.iter_tools s,
        (t2.invalid = it_hidden ∨ t2.invalid = it_shadowed) →
        t2.«alias» ≠ t.«alias») ∧
    SuiteOp.iter_tools s = visPart s ++ hidPart s ++ shadPart s ++ missPart s := by
  refine ⟨⟨?_, ?_⟩, ?_, iter_tools_eq_parts s⟩
  · rintro ⟨t, ht, hm, rfl⟩
    rcases mem_missPart_iff.mp (mem_iter_tools_missing ht hm) with
      ⟨p, hp, q, hq, hlive, rfl⟩
    refine ⟨⟨(p.1, q.1, q.2), ?_, rfl⟩, hlive⟩
    exact List.mem_flatten.mpr ⟨p.2.map (fun q => (p.1, q.1, q.2)),
      List.mem_map.mpr ⟨p, hp, rfl⟩, List.mem_map.mpr ⟨q, hq, rfl⟩⟩
  · rintro ⟨⟨en, hen, ha⟩, hlive⟩
    rcases List.mem_flatten.mp hen with ⟨l, hl, hel⟩
    rcases List.mem_map.mp hl with ⟨p, hp, rfl⟩
    rcases List.mem_map.mp hel with ⟨q, hq, hqe⟩
    have hq1 : q.1 = a := by
      have : en.2.1 = q.1 := by rw [← hqe]
      rw [← this, ha]
    refine ⟨SuiteOp.tool_data_to_tuple s ⟨q.2, q.1, p.1, none⟩ it_missing, ?_, rfl, hq1⟩
    rw [iter_tools_eq_parts]
    simp only [List.mem_append]
    refine Or.inr (mem_missPart_iff.mpr ⟨p, hp, q, hq, ?_, rfl⟩)
    rw [hq1]
    exact hlive
  · intro t ht hm t2 ht2 hcat heq
    have h1 : t.«alias» ∉ liveAliases s := by
      rcases mem_missPart_iff.mp (mem_iter_tools_missing ht hm) with
        ⟨p, hp, q, hq, hlive, rfl⟩
      exact hlive
    have h2 : t2.«alias» ∈ liveAliases s := by
      rw [iter_tools_eq_parts] at ht2
      simp only [List.mem_append] at ht2
      rcases ht2 with ((h | h) | h) | h
      · rcases hcat with hc | hc
        · exact absurd (mem_visPart_invalid h) (by rw [hc]; decide)
        · exact absurd (mem_visPart_invalid h) (by rw [hc]; decide)
      · exact (mem_hidPart_invalid h).2
      · exact (mem_shadPart_invalid h).2
      · rcases mem_missPart_iff.mp h with ⟨p, hp, q, hq, hlive, rfl⟩
        rcases hcat with hc | hc <;>
          · simp only [SuiteOp.tool_data_to_tuple] at hc
            exact absurd hc (by decide)
    rw [heq] at h2
    exact h1 h2

/-- C8 witness: a concrete tool-table state — a visible `alpha`, a hidden
`beta`, and saved entries `beta` (live, hence not missing) and `gamma`
(absent, hence missing). -/
def toolTableState : SuiteOpState :=
  ⟨⟨[("c1", ⟨"c1", ⟨[], true, ["alpha", "beta"]⟩, 1, "", "", [], []⟩)], "",
    [("alpha", ⟨"alpha", "alpha", "c1", some "pkg-1"⟩)],
    [⟨"beta", "beta", "c1", some "pkg-1"⟩],
    [],
    [("c1", [("beta", "beta"), ("gamma", "gamma")])]⟩, [("c1", "ctx")]⟩

/-- C8 witness: the characterization applied at the concrete table — `gamma`
is reported missing, `beta` is not. -/
theorem iter_tools_missing_witness :
    (∃ t ∈ SuiteOp.iter_tools toolTableState,
      t.invalid = it_missing ∧ t.«alias» = "gamma") ∧
    ¬ (∃ t ∈ SuiteOp.iter_tools toolTableState,
      t.invalid = it_missing ∧ t.«alias» = "beta") := by
  constructor
  · exact (iter_tools_missing_spec toolTableState "gamma").1.mpr (by decide)
  · intro h
    have h2 := (iter_tools_missing_spec toolTableState "beta").1.mp h
    revert h2
    decide

/-! ### The identity-map invariant (C3) -/

/-- One mutating call of the claim's operation alphabet: `add_context` (with
the fresh id its `_unique_id()` call generates), `rename_context`,
`drop_context`. -/
inductive OpCall where
  | add : String → String → List String → OpCall
  | ren : String → String → OpCall
  | drop : String → OpCall

/-- The state after one call; a reported or raised error leaves the state
exactly as the call left it. -/
def applyCall (nListeners : Nat) (oracle : Oracle) (s : SuiteOpState) :
    OpCall → SuiteOpState
  | .add newId name reqs => (SuiteOp.add_context nListeners oracle newId s name reqs).1
  | .ren ctx_id nm => (SuiteOp.rename_context nListeners s ctx_id nm).1
  | .drop ctx_id => SuiteOp.drop_context s ctx_id

/-- The generated ids consumed by the `add` calls of a call list. -/
def addIds : List OpCall → List String
  | [] => []
  | OpCall.add i _ _ :: t => i :: addIds t
  | OpCall.ren _ _ :: t => addIds t
  | OpCall.drop _ :: t => addIds t

theorem addIds_cons (c : OpCall) (t : List OpCall) :
    addIds (c :: t) = addIds [c] ++ addIds t := by
  cases c <;> simp [addIds]

/-- The identity-map bijection invariant: duplicate-free keys on both sides,
the same key set on both sides, and pairwise-distinct names. -/
def SuiteInv (s : SuiteOpState) : Prop :=
  (dkeys s.ctx_names).Nodup ∧ (dkeys s.suite.contexts).Nodup ∧
  (∀ x ∈ dkeys s.ctx_names, x ∈ dkeys s.suite.contexts) ∧
  (∀ x ∈ dkeys s.suite.contexts, x ∈ dkeys s.ctx_names) ∧
  (dvalues s.ctx_names).Nodup

instance decidableSuiteInv (s : SuiteOpState) : Decidable (SuiteInv s) := by
  unfold SuiteInv
  infer_instance

theorem dkeys_append_single {α : Type} (d : List (String × α)) (k : String) (v : α) :
    dkeys (d ++ [(k, v)]) = dkeys d ++ [k] := by
  simp [dkeys]

theorem dvalues_append_single {α : Type} (d : List (String × α)) (k : String) (v : α) :
    dvalues (d ++ [(k, v)]) = dvalues d ++ [v] := by
  simp [dvalues]

/-- Invariant preservation and key tracking for one call. -/
theorem suiteInv_step (nListeners : Nat) (oracle : Oracle) (s : SuiteOpState)
    (c : OpCall) (hInv : SuiteInv s)
    (hfresh : ∀ i ∈ addIds [c], i ∉ dkeys s.ctx_names) :
    SuiteInv (applyCall nListeners oracle s c) ∧
    ∀ x ∈ dkeys (applyCall nListeners oracle s c).ctx_names,
      x ∈ dkeys s.ctx_names ∨ x ∈ addIds [c] := by
  obtain ⟨hnd1, hnd2, hsub1, hsub2, hval⟩ := hInv
  cases c with
  | add newId name reqs =>
    have hif : newId ∉ dkeys s.ctx_names := hfresh newId (by simp [addIds])
    have his : newId ∉ dkeys s.suite.contexts := fun hmem => hif (hsub2 newId hmem)
    have hgets : dget s.suite.contexts newId = none := (dget_none_iff _ _).mpr his
    by_cases hname : name ∈ dvalues s.ctx_names
    · have hstate : applyCall nListeners oracle s (.add newId name reqs) = s := by
        simp only [applyCall, SuiteOp.add_context, if_pos hname]
        split <;> rfl
      rw [hstate]
      exact ⟨⟨hnd1, hnd2, hsub1, hsub2, hval⟩, fun x hx => Or.inl hx⟩
    · have hstate : applyCall nListeners oracle s (.add newId name reqs) = s ∨
          ∃ c0 : ResolvedContext,
            applyCall nListeners oracle s (.add newId name reqs) =
              ⟨{ s.suite with contexts := s.suite.contexts ++
                  [(newId, ⟨newId, c0, s.suite.next_priority, "", "", [], []⟩)] },
                s.ctx_names ++ [(newId, name)]⟩ := by
        rcases hres : _resolved_ctx nListeners oracle reqs with ⟨em, res⟩
        cases res with
        | error e =>
          left
          simp [applyCall, SuiteOp.add_context, hname, hres]
        | ok c0 =>
          right
          refine ⟨c0, ?_⟩
          simp only [applyCall, SuiteOp.add_context, if_neg hname, hres]
          simp only [SweetSuite.add_context, hgets, Option.isSome_none, Bool.false_eq_true,
            if_false]
          rw [dset_of_absent _ his, dset_of_absent _ hif]
          split <;> rfl
      rcases hstate with hstate | ⟨c0, hstate⟩
      · rw [hstate]
        exact ⟨⟨hnd1, hnd2, hsub1, hsub2, hval⟩, fun x hx => Or.inl hx⟩
      · rw [hstate]
        refine ⟨⟨?_, ?_, ?_, ?_, ?_⟩, ?_⟩
        · rw [dkeys_append_single]
          simp only [List.nodup_append, List.nodup_cons, List.not_mem_nil,
            not_false_iff, List.nodup_nil, and_true, true_and, List.disjoint_singleton]
          exact ⟨hnd1, hif⟩
        · rw [dkeys_append_single]
          simp only [List.nodup_append, List.nodup_cons, List.not_mem_nil,
            not_false_iff, List.nodup_nil, and_true, true_and, List.disjoint_singleton]
          exact ⟨hnd2, his⟩
        · intro x hx
          rw [dkeys_append_single] at hx ⊢
          simp only [List.mem_append, List.mem_singleton] at hx ⊢
          rcases hx with hx | hx
          · exact Or.inl (hsub1 x hx)
          · exact Or.inr hx
        · intro x hx
          rw [dkeys_append_single] at hx ⊢
          simp only [List.mem_append, List.mem_singleton] at hx ⊢
          rcases hx with hx | hx
          · exact Or.inl (hsub2 x hx)
          · exact Or.inr hx
        · rw [dvalues_append_single]
          simp only [List.nodup_append, List.nodup_cons, List.not_mem_nil,
            not_false_iff, List.nodup_nil, and_true, true_and, List.disjoint_singleton]
          exact ⟨hval, hname⟩
        · intro x hx
          rw [dkeys_append_single] at hx
          simp only [List.mem_append, List.mem_singleton] at hx
          rcases hx with hx | hx
          · exact Or.inl hx
          · exact Or.inr (by simp [addIds, hx])
  | ren ctx_id nm =>
    have hstate : applyCall nListeners oracle s (.ren ctx_id nm) = s ∨
        (applyCall nListeners oracle s (.ren ctx_id nm) =
          ⟨s.suite, dset s.ctx_names ctx_id nm⟩ ∧
          ctx_id ∈ dkeys s.ctx_names ∧ nm ∉ dvalues s.ctx_names) := by
      by_cases hc : s.suite.has_context ctx_id = true
      · by_cases hv : nm ∈ dvalues s.ctx_names
        · left
          simp [applyCall, SuiteOp.rename_context, hc, hv]
        · right
          refine ⟨by simp [applyCall, SuiteOp.rename_context, hc, hv], ?_, hv⟩
          exact hsub2 ctx_id ((dget_isSome_iff _ _).mp hc)
      · left
        simp [applyCall, SuiteOp.rename_context, hc]
    rcases hstate with hstate | ⟨hstate, hmem, hv⟩
    · rw [hstate]
      exact ⟨⟨hnd1, hnd2, hsub1, hsub2, hval⟩, fun x hx => Or.inl hx⟩
    · rw [hstate]
      have hkeys : dkeys (dset s.ctx_names ctx_id nm) = dkeys s.ctx_names :=
        dkeys_dset_of_mem nm hmem
      refine ⟨⟨?_, hnd2, ?_, ?_, ?_⟩, ?_⟩
      · rw [hkeys]; exact hnd1
      · intro x hx; rw [hkeys] at hx; exact hsub1 x hx
      · intro x hx; rw [hkeys]; exact hsub2 x hx
      · exact nodup_dvalues_dset hval hv
      · intro x hx; rw [hkeys] at hx; exact Or.inl hx
  | drop ctx_id =>
    by_cases hmem : (dget s.suite.contexts ctx_id).isSome
    · have hstate : applyCall nListeners oracle s (.drop ctx_id) =
          ⟨{ s.suite with contexts := dpop s.suite.contexts ctx_id },
            dpop s.ctx_names ctx_id⟩ := by
        simp [applyCall, SuiteOp.drop_context, SweetSuite.remove_context, hmem]
      rw [hstate]
      have hsubk1 : List.Sublist (dkeys (dpop s.ctx_names ctx_id)) (dkeys s.ctx_names) :=
        (dpop_sublist s.ctx_names ctx_id).map Prod.fst
      have hsubk2 : List.Sublist (dkeys (dpop s.suite.contexts ctx_id))
          (dkeys s.suite.contexts) :=
        (dpop_sublist s.suite.contexts ctx_id).map Prod.fst
      have hne1 : ctx_id ∉ dkeys (dpop s.ctx_names ctx_id) :=
        (dget_none_iff _ _).mp (dget_dpop_self hnd1)
      have hne2 : ctx_id ∉ dkeys (dpop s.suite.contexts ctx_id) :=
        (dget_none_iff _ _).mp (dget_dpop_self hnd2)
      refine ⟨⟨hnd1.sublist hsubk1, hnd2.sublist hsubk2, ?_, ?_, ?_⟩, ?_⟩
      · intro x hx
        have hxo : x ∈ dkeys s.ctx_names := hsubk1.subset hx
        have hxne : x ≠ ctx_id := fun hh => hne1 (hh ▸ hx)
        exact mem_dkeys_dpop_of_ne (hsub1 x hxo) hxne
      · intro x hx
        have hxo : x ∈ dkeys s.suite.contexts := hsubk2.subset hx
        have hxne : x ≠ ctx_id := fun hh => hne2 (hh ▸ hx)
        exact mem_dkeys_dpop_of_ne (hsub2 x hxo) hxne
      · exact hval.sublist ((dpop_sublist s.ctx_names ctx_id).map Prod.snd)
      · intro x hx
        exact Or.inl (hsubk1.subset hx)
    · have hget : dget s.suite.contexts ctx_id = none := by
        cases h : dget s.suite.contexts ctx_id
        · rfl
        · rw [h] at hmem
          simp at hmem
      have hnotm : ctx_id ∉ dkeys s.ctx_names :=
        fun hx => ((dget_none_iff _ _).mp hget) (hsub1 ctx_id hx)
      have hstate : applyCall nListeners oracle s (.drop ctx_id) = s := by
        simp [applyCall, SuiteOp.drop_context, SweetSuite.remove_context, hget,
          dpop_of_absent ((dget_none_iff _ _).mpr hnotm)]
      rw [hstate]
      exact ⟨⟨hnd1, hnd2, hsub1, hsub2, hval⟩, fun x hx => Or.inl hx⟩

/-- Invariant preservation over a whole call sequence. -/
theorem suiteInv_foldl (nListeners : Nat) (oracle : Oracle) (calls : List OpCall)
    (s : SuiteOpState) (hInv : SuiteInv s) (hnd : (addIds calls).Nodup)
    (hfr : ∀ i ∈ addIds calls, i ∉ dkeys s.ctx_names) :
    SuiteInv (calls.foldl (applyCall nListeners oracle) s) ∧
    ∀ x ∈ dkeys (calls.foldl (applyCall nListeners oracle) s).ctx_names,
      x ∈ dkeys s.ctx_names ∨ x ∈ addIds calls := by
  induction calls generalizing s with
  | nil => exact ⟨hInv, fun x hx => Or.inl hx⟩
  | cons c t ih =>
    rw [addIds_cons] at hnd hfr
    rw [List.nodup_append] at hnd
    obtain ⟨hndc, hndt, hdisj⟩ := hnd
    have hfrc : ∀ i ∈ addIds [c], i ∉ dkeys s.ctx_names :=
      fun i hi => hfr i (List.mem_append.mpr (Or.inl hi))
    obtain ⟨hInv1, hkeys1⟩ := suiteInv_step nListeners oracle s c hInv hfrc
    have hfrt : ∀ i ∈ addIds t,
        i ∉ dkeys (applyCall nListeners oracle s c).ctx_names := by
      intro i hi hmem
      rcases hkeys1 i hmem with h | h
      · exact hfr i (List.mem_append.mpr (Or.inr hi)) h
      · exact hdisj h hi
    obtain ⟨hInv2, hkeys2⟩ := ih (applyCall nListeners oracle s c) hInv1 hndt hfrt
    refine ⟨by simpa [List.foldl_cons] using hInv2, ?_⟩
    intro x hx
    simp only [List.foldl_cons] at hx
    rcases hkeys2 x hx with h | h
    · rcases hkeys1 x h with h2 | h2
      · exact Or.inl h2
      · exact Or.inr (by rw [addIds_cons]; exact List.mem_append.mpr (Or.inl h2))
    · exact Or.inr (by rw [addIds_cons]; exact List.mem_append.mpr (Or.inr h))

theorem emit_fatal_raises (nListeners : Nat) (sender : String) (e : SErr) :
    (_emit_err nListeners sender e true).2 = some e := by
  by_cases h : 0 < nListeners <;> simp [_emit_err, h]

/-- `sanity_check` raises on every violation it checks: a map id missing from
the collection, or a duplicated name. -/
theorem sanity_check_raises_on_checked_violation (nListeners : Nat)
    (s : SuiteOpState)
    (h : (∃ id ∈ dkeys s.ctx_names, s.suite.has_context id = false) ∨
      ¬ (dvalues s.ctx_names).Nodup) :
    (SuiteOp.sanity_check nListeners s).2.isSome := by
  rcases hfind : (dkeys s.ctx_names).find? (fun id => ! s.suite.has_context id) with _ | x
  · rcases h with ⟨id, hid, hfalse⟩ | hdup
    · exfalso
      have := List.find?_eq_none.mp hfind id hid
      simp [hfalse] at this
    · simp only [SuiteOp.sanity_check, hfind]
      rw [if_neg hdup]
      simp [emit_fatal_raises]
  · simp only [SuiteOp.sanity_check, hfind]
    simp [emit_fatal_raises]

/-- C3: from any consistent state, every sequence of
`add_context`/`rename_context`/`drop_context` calls whose generated ids are
collision-free preserves the bijection invariant (identity-map ids are
exactly the collection's context ids, names pairwise distinct), whether or
not individual calls reported errors; and `sanity_check` raises a fatal
error whenever an identity-map id is missing from the collection or a
mapped name is duplicated. (It does not detect the remaining violation of
exactness — a collection id missing from the map; see the counterexample.) -/
theorem identity_map_invariant (nListeners : Nat) (oracle : Oracle) :
    (∀ (s : SuiteOpState) (calls : List OpCall),
      SuiteInv s → (addIds calls).Nodup →
      (∀ i ∈ addIds calls, i ∉ dkeys s.ctx_names) →
      SuiteInv (calls.foldl (applyCall nListeners oracle) s)) ∧
    (∀ s : SuiteOpState,
      ((∃ id ∈ dkeys s.ctx_names, s.suite.has_context id = false) ∨
        ¬ (dvalues s.ctx_names).Nodup) →
      (SuiteOp.sanity_check nListeners s).2.isSome) :=
  ⟨fun s calls hInv hnd hfr => (suiteInv_foldl nListeners oracle calls s hInv hnd hfr).1,
    fun s h => sanity_check_raises_on_checked_violation nListeners s h⟩

/-- A state whose collection holds a context the identity map does not know:
the exactness half of the claimed invariant check is violated. -/
def unmappedCtxState : SuiteOpState :=
  ⟨{ SweetSuite.empty with
     contexts := [("x", ⟨"x", ⟨[], true, []⟩, 1, "", "", [], []⟩)] }, []⟩

/-- C3 counterexample: the identity map's key set differs from the
collection's key set (`"x"` is only in the collection), yet `sanity_check`
reports nothing and raises nothing — the claim says a fatal error is raised
whenever the two sets differ. -/
theorem sanity_check_misses_unmapped_context :
    "x" ∈ dkeys unmappedCtxState.suite.contexts ∧
    "x" ∉ dkeys unmappedCtxState.ctx_names ∧
    SuiteOp.sanity_check 1 unmappedCtxState = ([], none) := by
  refine ⟨by decide, by decide, rfl⟩

/-- C3 witness: the invariant after a concrete add/rename/add/drop sequence,
and a raising `sanity_check` on a state whose map holds a dangling id. -/
theorem identity_map_invariant_witness :
    SuiteInv ([OpCall.add "id1" "a" [], OpCall.ren "id1" "b",
      OpCall.add "id2" "c" [], OpCall.drop "id1"].foldl (applyCall 1 okOracle) freshOp) ∧
    (SuiteOp.sanity_check 1 ⟨SweetSuite.empty, [("id9", "g")]⟩).2.isSome :=
  ⟨(identity_map_invariant 1 okOracle).1 freshOp
      [OpCall.add "id1" "a" [], OpCall.ren "id1" "b",
        OpCall.add "id2" "c" [], OpCall.drop "id1"]
      (by decide) (by decide) (by decide),
    (identity_map_invariant 1 okOracle).2 ⟨SweetSuite.empty, [("id9", "g")]⟩
      (Or.inl ⟨"id9", by decide, by decide⟩)⟩

end Sweet
